import Mathlib

/-!
Verification of the RPCA repository's two core scripts,
`workflow/scripts/combine.py` and `workflow/scripts/extract_overlap.py`,
against their natural-language specification.

Modelling conventions:
* A text file is a `List String` of its lines, with the trailing newline
  characters stripped; writing a line to an output stream appends it to a
  `List String` (so Python's `line.strip('\n')` and `line[:-1]` become the
  identity on a line, and every write carries an implicit terminator).
* A Python `dict` is an insertion-ordered association list
  `List (String × α)` with key-overwriting insertion (`dinsert`);
  a `collections.defaultdict(list)` lookup, which inserts an empty list
  into the dictionary when the key is missing, is modelled explicitly at
  each place the scripts perform such a lookup.
* Python `float` arithmetic is modelled over `ℚ`, which is exact for the
  integral-valued decimal fields the flair abundance format guarantees.
* A fatal, uncaught exception (an `IndexError` on a missing field, a
  `StopIteration` on an empty file, a `ValueError` on a malformed number)
  is `none`; the `KeyError`s that the scripts catch are ordinary `Option`
  branches inside the definitions.
-/

namespace RPCA

/-- Split a character list at every character satisfying `p`, keeping empty
segments; this is the behaviour of Python `str.split(sep)` before any
filtering of empty fields. -/
def chsplit (p : Char → Bool) : List Char → List (List Char)
  | [] => [[]]
  | c :: cs =>
    match chsplit p cs, p c with
    | r, true => [] :: r
    | [], false => [[c]]
    | g :: gs, false => (c :: g) :: gs

/-- Python `str.split()` with no argument: split on whitespace and discard
empty fields. -/
def pysplit (s : String) : List String :=
  ((chsplit (fun c => c.isWhitespace) s.data).map String.mk).filter (fun t => t ≠ "")

/-- Python `str.split(sep)` for a one-character separator: split at every
occurrence of `sep`, keeping empty fields. -/
def pysplitOn (sep : Char) (s : String) : List String :=
  (chsplit (fun c => c = sep) s.data).map String.mk

/-- Python slice `s[1:-2]`, used by both scripts to strip a leading quote
and a trailing quote-plus-semicolon from a GTF attribute field. -/
def slice1m2 (s : String) : String :=
  String.mk ((s.data.drop 1).take (s.data.length - 3))

/-- Value of a nonempty all-digit character list, read in base 10;
`none` on the empty list or any non-digit character. -/
def digitsToNat (cs : List Char) : Option Nat :=
  if cs = [] then none
  else if cs.all (fun c => c.isDigit) then
    some (cs.foldl (fun a c => 10 * a + (c.toNat - 48)) 0)
  else none

/-- Python `int(s)` on a plain decimal literal with an optional sign;
any other shape is a fatal `ValueError`, modelled as `none`. -/
def pyint (s : String) : Option Int :=
  match s.data with
  | '-' :: rest => (digitsToNat rest).map (fun n => -(n : Int))
  | '+' :: rest => (digitsToNat rest).map (fun n => (n : Int))
  | cs => (digitsToNat cs).map (fun n => (n : Int))

/-- Python `float(s)` on a plain decimal literal with an optional sign and
optional fractional part, modelled exactly over `ℚ` (no binary rounding;
exact for the integral-valued inputs the abundance contract guarantees).
Any other shape is a fatal `ValueError`, modelled as `none`. -/
def pyfloat (s : String) : Option ℚ :=
  let sb : Int × List Char :=
    match s.data with
    | '-' :: rest => (-1, rest)
    | '+' :: rest => (1, rest)
    | cs => (1, cs)
  match chsplit (fun c => c = '.') sb.2 with
  | [a] => (digitsToNat a).map (fun n => mkRat (sb.1 * (n : Int)) 1)
  | [a, b] =>
    if a = [] && b = [] then none
    else
      match (if a = [] then some 0 else digitsToNat a),
            (if b = [] then some 0 else digitsToNat b) with
      | some ia, some ib =>
        some (mkRat (sb.1 * ((ia * 10 ^ b.length + ib : Nat) : Int)) (10 ^ b.length))
      | _, _ => none
  | _ => none

/-- Lookup in a Python `dict` modelled as an insertion-ordered association
list: `d[k]` when present, a (caught) `KeyError` as `none` when absent. -/
def dlookup (k : String) : List (String × α) → Option α
  | [] => none
  | (k', v) :: rest => if k' = k then some v else dlookup k rest

/-- Key-overwriting insertion `d[k] = v` into a Python `dict`: replace the
value in place when the key is present, append the pair otherwise. -/
def dinsert (k : String) (v : α) : List (String × α) → List (String × α)
  | [] => [(k, v)]
  | (k', v') :: rest =>
    if k' = k then (k, v) :: rest else (k', v') :: dinsert k v rest

/-- The `defaultdict(list)` idiom `d[k].append(v)`: append `v` to the list
stored under `k`, creating the entry `(k, [v])` when `k` is absent. -/
def dappend (k : String) (v : String) :
    List (String × List String) → List (String × List String)
  | [] => [(k, [v])]
  | (k', vs) :: rest =>
    if k' = k then (k', vs ++ [v]) :: rest else (k', vs) :: dappend k v rest

/-- Map a fallible function over a list, failing as a whole when any element
fails (a Python loop whose body may raise an uncaught exception). -/
def mapOpt (f : α → Option β) : List α → Option (List β)
  | [] => some []
  | a :: as =>
    match f a, mapOpt f as with
    | some b, some bs => some (b :: bs)
    | _, _ => none

/-! Definitions embedded from `workflow/scripts/combine.py`. -/

/-- Per-row body of `format_oxford`: the loop body of combine.py lines 29-34.
Field 0 (comma-delimited) is the identifier; the remaining fields are
integers, with empty fields skipped; the row value is their sum. -/
def oxfordRow (line : String) : Option (String × Int) :=
  match pysplitOn ',' line with
  | [] => none
  | transcript_id :: rest =>
    (mapOpt pyint (rest.filter (fun t => t ≠ ""))).map
      (fun vs => (transcript_id, vs.sum))

/-- `format_oxford` of combine.py: skip the header line (a fatal
`StopIteration` on an empty file), then build the counts dictionary row by
row with overwriting insertion. -/
def format_oxford (lines : List String) : Option (List (String × Int)) :=
  match lines with
  | [] => none
  | _header :: rows =>
    (mapOpt oxfordRow rows).map
      (fun prs => prs.foldl (fun d p => dinsert p.1 p.2 d) [])

/-- Per-row body of `format_talon`: the loop body of combine.py lines 50-55.
Field 3 (tab-delimited) is the identifier; the row value is the sum of the
integer fields from field 11 onward. -/
def talonRow (line : String) : Option (String × Int) :=
  match (pysplitOn '\t' line).get? 3 with
  | none => none
  | some transcript_id =>
    (mapOpt pyint ((pysplitOn '\t' line).drop 11)).map
      (fun vs => (transcript_id, vs.sum))

/-- `format_talon` of combine.py: skip the header line, then build the
counts dictionary row by row with overwriting insertion. -/
def format_talon (lines : List String) : Option (List (String × Int)) :=
  match lines with
  | [] => none
  | _header :: rows =>
    (mapOpt talonRow rows).map
      (fun prs => prs.foldl (fun d p => dinsert p.1 p.2 d) [])

/-- Per-row body of `format_flair`: the loop body of combine.py lines 71-76.
Field 0 (tab-delimited) is the identifier; the row value is the sum of the
remaining fields parsed as Python floats (modelled exactly over `ℚ`). -/
def flairRow (line : String) : Option (String × ℚ) :=
  match pysplitOn '\t' line with
  | [] => none
  | transcript_id :: rest =>
    (mapOpt pyfloat rest).map (fun vs => (transcript_id, vs.sum))

/-- `format_flair` of combine.py: skip the header line, then build the
counts dictionary row by row with overwriting insertion. -/
def format_flair (lines : List String) : Option (List (String × ℚ)) :=
  match lines with
  | [] => none
  | _header :: rows =>
    (mapOpt flairRow rows).map
      (fun prs => prs.foldl (fun d p => dinsert p.1 p.2 d) [])

/-- One iteration of the `combine` loop of combine.py (lines 112-152), on
one line of the GTF file.  `countStr` is Python's `str` on the count value
(`counts` holds `int`s or `float`s at the call sites; both embed in `ℚ`).
Input: the current `write` flag and the line; output: the new flag, the
lines appended to the main output, and the lines appended to the
quarantine (`removed_out`) output.  `none` is a fatal `IndexError`. -/
def combineStep (countStr : ℚ → String) (counts : List (String × ℚ))
    (w : Bool) (line : String) : Option (Bool × List String × List String) :=
  match (pysplit line).get? 2 with
  | none => none
  | some kind =>
    if kind = "transcript" then
      match (pysplit line).get? 11 with
      | none => none
      | some f11 =>
        match dlookup (slice1m2 f11) counts with
        | some count =>
          if count = 0 then
            some (false, [], [line])
          else
            some (true, [line ++ " TPM \"" ++ countStr count ++ "\";"], [])
        | none =>
          match (pysplit line).get? 9 with
          | none => none
          | some f9 =>
            match dlookup (slice1m2 f11 ++ "_" ++ slice1m2 f9) counts with
            | some count =>
              some (true, [line ++ " TPM \"" ++ countStr count ++ "\";"], [])
            | none => some (false, [], [line])
    else
      if w then some (w, [line], []) else some (w, [], [line])

/-- The `combine` loop of combine.py run from a given `write` flag over the
remaining lines, accumulating the two output streams. -/
def combineAux (countStr : ℚ → String) (counts : List (String × ℚ)) :
    Bool → List String → Option (Bool × List String × List String)
  | w, [] => some (w, [], [])
  | w, line :: rest =>
    match combineStep countStr counts w line with
    | none => none
    | some (w1, m1, q1) =>
      match combineAux countStr counts w1 rest with
      | none => none
      | some (w2, m2, q2) => some (w2, m1 ++ m2, q1 ++ q2)

/-- `combine` of combine.py: process every line of the GTF file starting
from `write = True` (line 111) and return the pair
(main output lines, quarantine output lines). -/
def combine (countStr : ℚ → String) (counts : List (String × ℚ))
    (lines : List String) : Option (List String × List String) :=
  (combineAux countStr counts true lines).map (fun r => (r.2.1, r.2.2))

/-! Definitions embedded from `workflow/scripts/extract_overlap.py`. -/

/-- Resolution of one transcript field of a tracking line (the loop body of
extract_overlap.py lines 29-37): the sentinel stays itself, any other field
yields the text after the first `|` (a missing `|` is a fatal
`IndexError`). -/
def trackingId (s : String) : Option String :=
  if s = "-" then some "-" else (pysplitOn '|' s).get? 1

/-- Parse of one tracking line: its group identifier (field 0, a fatal
`IndexError` on a blank line), the resolved identifier list from field 4
onward, and the number of sentinel fields among them. -/
def trackingLine (line : String) : Option (String × List String × Nat) :=
  match (pysplit line).get? 0 with
  | none => none
  | some key =>
    (mapOpt trackingId ((pysplit line).drop 4)).map
      (fun ids => (key, ids, (((pysplit line).drop 4).filter (fun t => t = "-")).length))

/-- The `categorize_tracking` loop of extract_overlap.py run from given
accumulators `(three_match, two_match, no_match)`: a line with one sentinel
goes to `two_match`, with two sentinels to `no_match`, and any other line
(in particular one with no sentinels) to `three_match`. -/
def categorizeAux :
    List (String × List String) → List (String × List String) →
    List (String × List String) → List String →
    Option (List (String × List String) × List (String × List String) ×
            List (String × List String))
  | d3, d2, d1, [] => some (d3, d2, d1)
  | d3, d2, d1, line :: rest =>
    match trackingLine line with
    | none => none
    | some (key, ids, cnt) =>
      if cnt = 1 then categorizeAux d3 (dinsert key ids d2) d1 rest
      else if cnt = 2 then categorizeAux d3 d2 (dinsert key ids d1) rest
      else categorizeAux (dinsert key ids d3) d2 d1 rest

/-- `categorize_tracking` of extract_overlap.py: bucket every tracking line
into `(three_match, two_match, no_match)` starting from empty
dictionaries. -/
def categorize_tracking (lines : List String) :
    Option (List (String × List String) × List (String × List String) ×
            List (String × List String)) :=
  categorizeAux [] [] [] lines

/-- The `gtf` loop of extract_overlap.py run from a given accumulated
dictionary, indexing each remaining line in file order. -/
def gtfAux (acc : List (String × List String)) :
    List String → Option (List (String × List String))
  | [] => some acc
  | line :: rest =>
    if line.data.head? = some '#' then gtfAux acc rest
    else
      match (pysplit line).get? 2 with
      | none => none
      | some kind =>
        if kind = "gene" then gtfAux acc rest
        else
          match (pysplit line).get? 11 with
          | none => none
          | some f11 => gtfAux (dappend (slice1m2 f11) line acc) rest

/-- `gtf` of extract_overlap.py: index a GTF file as a
`defaultdict(list)` from transcript identifier (field 11 with the quote
convention stripped) to the lines carrying it in file order, skipping
comment lines and `gene` records; a line with too few fields is a fatal
`IndexError`. -/
def gtf (lines : List String) : Option (List (String × List String)) :=
  gtfAux [] lines

/-- Append the ` match_id "<groupId>";` annotation of extract_overlap.py
lines 88/92/96 to every line of a record. -/
def tagLines (g : String) (ls : List String) : List String :=
  ls.map (fun l => l ++ " match_id \"" ++ g ++ "\";")

/-- A `defaultdict(list)` read `d[k]`: the stored record when the key is
present; otherwise the empty record, which the lookup itself inserts into
the dictionary. -/
def ddRead (k : String) (d : List (String × List String)) :
    List String × List (String × List String) :=
  match dlookup k d with
  | some v => (v, d)
  | none => ([], d ++ [(k, [])])

/-- Body of the `write` loop of extract_overlap.py (lines 83-96) for one
tracking group: choose the pipeline by the priority order oxford, flair,
talon on the first three identifier slots, read that pipeline's index with
`defaultdict` semantics, and emit the tagged record.  Returns the emitted
lines and the three (possibly extended) indexes; `none` is a fatal
`IndexError` on a too-short identifier list. -/
def writeGroup (g : String) (ids : List String)
    (oxford flair talon : List (String × List String)) :
    Option (List String × List (String × List String) ×
            List (String × List String) × List (String × List String)) :=
  match ids.get? 0 with
  | none => none
  | some a =>
    if a ≠ "-" then
      some (tagLines g (ddRead a oxford).1, (ddRead a oxford).2, flair, talon)
    else
      match ids.get? 1 with
      | none => none
      | some b =>
        if b ≠ "-" then
          some (tagLines g (ddRead b flair).1, oxford, (ddRead b flair).2, talon)
        else
          match ids.get? 2 with
          | none => none
          | some c =>
            some (tagLines g (ddRead c talon).1, oxford, flair, (ddRead c talon).2)

/-- `write` of extract_overlap.py: process the bucket's groups in
insertion order, threading the three indexes (which `defaultdict` reads may
extend) and concatenating the emitted lines. -/
def write (groups : List (String × List String))
    (oxford flair talon : List (String × List String)) :
    Option (List String × List (String × List String) ×
            List (String × List String) × List (String × List String)) :=
  match groups with
  | [] => some ([], oxford, flair, talon)
  | (g, ids) :: rest =>
    match writeGroup g ids oxford flair talon with
    | none => none
    | some (out1, ox1, fl1, ta1) =>
      match write rest ox1 fl1 ta1 with
      | none => none
      | some (out2, ox2, fl2, ta2) => some (out1 ++ out2, ox2, fl2, ta2)

/-- Whether the pipeline slot that `write` selects for this identifier list
is actually present as a key in its index (so that the `defaultdict` read
does not extend the index). -/
def selectedFound (ids : List String)
    (oxford flair talon : List (String × List String)) : Bool :=
  match ids.get? 0 with
  | none => false
  | some a =>
    if a ≠ "-" then (dlookup a oxford).isSome
    else
      match ids.get? 1 with
      | none => false
      | some b =>
        if b ≠ "-" then (dlookup b flair).isSome
        else
          match ids.get? 2 with
          | none => false
          | some c => (dlookup c talon).isSome

/-! Helper lemmas about the `combine` loop. -/

/-- Every successful iteration of the `combine` loop writes exactly one
line in total across the two output streams. -/
theorem combineStep_sum_one {cs : ℚ → String} {counts : List (String × ℚ)}
    {w : Bool} {line : String} {w' : Bool} {m q : List String}
    (h : combineStep cs counts w line = some (w', m, q)) :
    m.length + q.length = 1 := by
  unfold combineStep at h
  repeat' split at h
  all_goals (try (exact Option.noConfusion h))
  all_goals
    (simp only [Option.some.injEq, Prod.mk.injEq] at h
     obtain ⟨h1, h2, h3⟩ := h
     subst_vars
     simp)

/-- A non-`transcript` line is passed through unchanged to the stream the
current `write` flag selects, and leaves the flag unchanged. -/
theorem combineStep_other {cs : ℚ → String} {counts : List (String × ℚ)}
    {w : Bool} {line : String} {kind : String}
    (h2 : (pysplit line).get? 2 = some kind) (hk : kind ≠ "transcript") :
    combineStep cs counts w line
      = some (w, if w then [line] else [], if w then [] else [line]) := by
  unfold combineStep
  simp only [h2]
  rw [if_neg hk]
  cases w <;> rfl

/-- On a `transcript` header line the new flag records the disposition:
flag `true` means exactly one (annotated) line went to the main output and
nothing to the quarantine, flag `false` means the header itself went
unchanged to the quarantine and nothing to the main output. -/
theorem combineStep_transcript_cases {cs : ℚ → String}
    {counts : List (String × ℚ)} {w : Bool} {line : String} {w' : Bool}
    {m q : List String}
    (h2 : (pysplit line).get? 2 = some "transcript")
    (h : combineStep cs counts w line = some (w', m, q)) :
    (w' = true → m.length = 1 ∧ q = []) ∧ (w' = false → m = [] ∧ q = [line]) := by
  unfold combineStep at h
  repeat' split at h
  all_goals (try (exact Option.noConfusion h))
  all_goals
    (simp only [Option.some.injEq, Prod.mk.injEq] at h
     obtain ⟨h1, h2, h3⟩ := h
     subst_vars
     simp_all)

/-- Run-level counterpart of `combineStep_sum_one`: a completed `combine`
loop writes one output line per input line. -/
theorem combineAux_length {cs : ℚ → String} {counts : List (String × ℚ)} :
    ∀ (lines : List String) (w w' : Bool) (m q : List String),
    combineAux cs counts w lines = some (w', m, q) →
    m.length + q.length = lines.length := by
  intro lines
  induction lines with
  | nil =>
    intro w w' m q h
    unfold combineAux at h
    simp only [Option.some.injEq, Prod.mk.injEq] at h
    obtain ⟨-, h2, h3⟩ := h
    subst_vars
    rfl
  | cons l ls ih =>
    intro w w' m q h
    unfold combineAux at h
    split at h
    · exact absurd h (by simp)
    · next w1 m1 q1 hs =>
      split at h
      · exact absurd h (by simp)
      · next w2 m2 q2 hr =>
        simp only [Option.some.injEq, Prod.mk.injEq] at h
        obtain ⟨-, h2, h3⟩ := h
        have e1 := combineStep_sum_one hs
        have e2 := ih _ _ _ _ hr
        subst h2; subst h3
        simp only [List.length_append, List.length_cons]
        omega

/-- A block of non-`transcript` lines processed while the flag is `true`
is copied verbatim to the front of the main output and contributes nothing
to the quarantine output. -/
theorem combineAux_nonheader_block {cs : ℚ → String}
    {counts : List (String × ℚ)} :
    ∀ (pre rest : List String),
    (∀ l ∈ pre, ∃ k, (pysplit l).get? 2 = some k ∧ k ≠ "transcript") →
    combineAux cs counts true (pre ++ rest) =
      (combineAux cs counts true rest).map (fun r => (r.1, pre ++ r.2.1, r.2.2)) := by
  intro pre
  induction pre with
  | nil =>
    intro rest _
    cases hr : combineAux cs counts true rest <;> simp [hr]
  | cons l ls ih =>
    intro rest hpre
    obtain ⟨k, hk2, hkne⟩ := hpre l (List.mem_cons_self l ls)
    have hstep : combineStep cs counts true l = some (true, [l], []) := by
      simpa using @combineStep_other cs counts true l k hk2 hkne
    have ihr := ih rest (fun x hx => hpre x (List.mem_cons_of_mem _ hx))
    simp only [List.cons_append, combineAux, hstep, List.append_eq]
    rw [ihr]
    cases hr : combineAux cs counts true rest with
    | none => simp
    | some r => simp

/-- C5: in a `combine` run that completes without a fatal error, every
transcript header line of the source annotation file is written to exactly
one of the main output and the quarantine output — never both and never
neither (first conjunct, per processed header line); consequently a
completed run writes exactly one output line per source line (second
conjunct). -/
theorem c5_header_partition :
    (∀ (cs : ℚ → String) (counts : List (String × ℚ)) (w : Bool)
        (line : String) (w' : Bool) (m q : List String),
        (pysplit line).get? 2 = some "transcript" →
        combineStep cs counts w line = some (w', m, q) →
        (m.length = 1 ∧ q = []) ∨ (m = [] ∧ q.length = 1))
  ∧ (∀ (cs : ℚ → String) (counts : List (String × ℚ)) (lines : List String)
        (m q : List String),
        combine cs counts lines = some (m, q) →
        m.length + q.length = lines.length) := by
  constructor
  · intro cs counts w line w' m q _ h
    have e := combineStep_sum_one h
    have hm : m.length = 1 ∧ q.length = 0 ∨ m.length = 0 ∧ q.length = 1 := by omega
    rcases hm with ⟨h1, h2⟩ | ⟨h1, h2⟩
    · exact Or.inl ⟨h1, List.length_eq_zero.mp h2⟩
    · exact Or.inr ⟨List.length_eq_zero.mp h1, h2⟩
  · intro cs counts lines m q h
    unfold combine at h
    cases ha : combineAux cs counts true lines with
    | none => rw [ha] at h; exact Option.noConfusion h
    | some r =>
      obtain ⟨w2, m2, q2⟩ := r
      rw [ha] at h
      simp only [Option.map_some', Option.some.injEq, Prod.mk.injEq] at h
      obtain ⟨h1, h2⟩ := h
      rw [← h1, ← h2]
      exact combineAux_length lines true w2 m2 q2 ha

/-- Witness for C5 at a concrete header line with count 5 and a concrete
one-line run. -/
theorem c5_witness :
    ((["chr1 src transcript 1 100 . + . gene_id \"G1\"; transcript_id \"T1\"; TPM \"5\";"].length = 1
        ∧ ([] : List String) = [])
      ∨ (["chr1 src transcript 1 100 . + . gene_id \"G1\"; transcript_id \"T1\"; TPM \"5\";"] = []
        ∧ ([] : List String).length = 1))
  ∧ ["chr1 src transcript 1 100 . + . gene_id \"G1\"; transcript_id \"T1\"; TPM \"5\";"].length
      + ([] : List String).length
      = ["chr1 src transcript 1 100 . + . gene_id \"G1\"; transcript_id \"T1\";"].length :=
  ⟨c5_header_partition.1 (fun _ => "5") [("T1", 5)] true
      "chr1 src transcript 1 100 . + . gene_id \"G1\"; transcript_id \"T1\";" true
      ["chr1 src transcript 1 100 . + . gene_id \"G1\"; transcript_id \"T1\"; TPM \"5\";"] []
      (by decide) (by decide),
    c5_header_partition.2 (fun _ => "5") [("T1", 5)]
      ["chr1 src transcript 1 100 . + . gene_id \"G1\"; transcript_id \"T1\";"]
      ["chr1 src transcript 1 100 . + . gene_id \"G1\"; transcript_id \"T1\"; TPM \"5\";"] []
      (by decide)⟩

/-- C6: a line whose record-kind field is not "transcript" is passed
unchanged to the stream selected by the current `write` flag (first
conjunct), and on a transcript header the flag records which stream
received the header (second conjunct); hence every dependent line follows
the most recently processed header, and in particular every exon line after
a quarantined header goes to the quarantine output. -/
theorem c6_exon_inheritance :
    (∀ (cs : ℚ → String) (counts : List (String × ℚ)) (w : Bool)
        (line kind : String),
        (pysplit line).get? 2 = some kind → kind ≠ "transcript" →
        combineStep cs counts w line
          = some (w, if w then [line] else [], if w then [] else [line]))
  ∧ (∀ (cs : ℚ → String) (counts : List (String × ℚ)) (w : Bool)
        (line : String) (w' : Bool) (m q : List String),
        (pysplit line).get? 2 = some "transcript" →
        combineStep cs counts w line = some (w', m, q) →
        (w' = true → m.length = 1 ∧ q = []) ∧ (w' = false → m = [] ∧ q = [line])) :=
  ⟨fun _ _ _ _ _ h2 hk => combineStep_other h2 hk,
   fun _ _ _ _ _ _ _ h2 h => combineStep_transcript_cases h2 h⟩

/-- Witness for C6: an exon line while the flag is `false` goes to the
quarantine stream, and a zero-count header sets the flag to `false` after
itself being quarantined. -/
theorem c6_witness :
    combineStep (fun _ => "1") [] false "chr1 src exon 1 100 . + . x"
      = some (false, if false then ["chr1 src exon 1 100 . + . x"] else [],
              if false then [] else ["chr1 src exon 1 100 . + . x"])
  ∧ ((false = true → ([] : List String).length = 1
        ∧ ["chr1 src transcript 1 100 . + . gene_id \"G1\"; transcript_id \"T1\";"] = [])
      ∧ (false = false → ([] : List String) = []
        ∧ ["chr1 src transcript 1 100 . + . gene_id \"G1\"; transcript_id \"T1\";"]
            = ["chr1 src transcript 1 100 . + . gene_id \"G1\"; transcript_id \"T1\";"])) :=
  ⟨c6_exon_inheritance.1 (fun _ => "1") [] false "chr1 src exon 1 100 . + . x" "exon"
      (by decide) (by decide),
    c6_exon_inheritance.2 (fun _ => "1") [("T1", 0)] true
      "chr1 src transcript 1 100 . + . gene_id \"G1\"; transcript_id \"T1\";" false []
      ["chr1 src transcript 1 100 . + . gene_id \"G1\"; transcript_id \"T1\";"]
      (by decide) (by decide)⟩

/-- C10: because `combine` initializes its `write` flag to true, every
non-"transcript" line before the first transcript header is written to the
main output: a run on `pre ++ rest` where `pre` holds only non-header lines
equals the run on `rest` with `pre` prepended to its main output and the
quarantine output unchanged. -/
theorem c10_initial_flag_true :
    ∀ (cs : ℚ → String) (counts : List (String × ℚ)) (pre rest : List String),
    (∀ l ∈ pre, ∃ k, (pysplit l).get? 2 = some k ∧ k ≠ "transcript") →
    combine cs counts (pre ++ rest)
      = (combine cs counts rest).map (fun r => (pre ++ r.1, r.2)) := by
  intro cs counts pre rest hpre
  unfold combine
  rw [combineAux_nonheader_block pre rest hpre]
  cases hr : combineAux cs counts true rest with
  | none => simp
  | some r => simp

/-- Witness for C10: a lone pre-header exon line lands in the main output. -/
theorem c10_witness :
    combine (fun _ => "1") [] (["chr1 src exon 1 100 . + . x"] ++ [])
      = (combine (fun _ => "1") [] []).map
          (fun r => (["chr1 src exon 1 100 . + . x"] ++ r.1, r.2)) :=
  c10_initial_flag_true (fun _ => "1") [] ["chr1 src exon 1 100 . + . x"] []
    (by
      intro l hl
      simp only [List.mem_singleton] at hl
      subst hl
      exact ⟨"exon", by decide, by decide⟩)

/-- C2 counterexample: a concrete header line whose primary identifier T1
is absent from the counts but whose fallback identifier T1_G1 is present
with count 0 is NOT quarantined: the loop sets the flag to `true` and
writes the line with ` TPM "0";` appended to the main output, leaving the
quarantine output empty — the found-and-count-zero handling demanded by
the claim (flag `false`, line to quarantine, nothing to main) does not
happen. -/
theorem c2_counterexample :
    combineStep (fun _ => "0") [("T1_G1", 0)] true
        "chr1 src transcript 1 100 . + . gene_id \"G1\"; transcript_id \"T1\";"
      = some (true,
          ["chr1 src transcript 1 100 . + . gene_id \"G1\"; transcript_id \"T1\"; TPM \"0\";"],
          [])
  ∧ combineStep (fun _ => "0") [("T1_G1", 0)] true
        "chr1 src transcript 1 100 . + . gene_id \"G1\"; transcript_id \"T1\";"
      ≠ some (false, [],
          ["chr1 src transcript 1 100 . + . gene_id \"G1\"; transcript_id \"T1\";"]) := by
  constructor <;> decide

/-- C2 (amended): when the primary count lookup of a transcript header
fails but the fallback identifier (transcript id + "_" + gene id) is found
with count 0, the zero-count quarantine handling is NOT repeated: the
fallback count is accepted as-is, `keep` is set to true, the line is
written to the main output with the count appended, and nothing is written
to the quarantine output (the zero-count check applies only to the primary
lookup). -/
theorem c2_fallback_zero_accepted :
    ∀ (cs : ℚ → String) (counts : List (String × ℚ)) (w : Bool)
      (line f11 f9 : String),
    (pysplit line).get? 2 = some "transcript" →
    (pysplit line).get? 11 = some f11 →
    dlookup (slice1m2 f11) counts = none →
    (pysplit line).get? 9 = some f9 →
    dlookup (slice1m2 f11 ++ "_" ++ slice1m2 f9) counts = some 0 →
    combineStep cs counts w line
      = some (true, [line ++ " TPM \"" ++ cs 0 ++ "\";"], []) := by
  intro cs counts w line f11 f9 h2 h11 hmiss h9 hfall
  unfold combineStep
  simp only [List.get?_eq_getElem?] at h2 h11 h9
  simp only [List.get?_eq_getElem?, h2, h11, h9, hmiss, hfall, if_true]

/-- Witness for the amended C2 at a concrete line (flag initially false). -/
theorem c2_witness :
    combineStep (fun _ => "0") [("T1_G1", 0)] false
        "chr1 src transcript 1 100 . + . gene_id \"G1\"; transcript_id \"T1\";"
      = some (true,
          ["chr1 src transcript 1 100 . + . gene_id \"G1\"; transcript_id \"T1\";"
            ++ " TPM \"" ++ "0" ++ "\";"],
          []) :=
  c2_fallback_zero_accepted (fun _ => "0") [("T1_G1", 0)] false
    "chr1 src transcript 1 100 . + . gene_id \"G1\"; transcript_id \"T1\";"
    "\"T1\";" "\"G1\";" (by decide) (by decide) (by decide) (by decide) (by decide)

/-! Helper lemmas about the `write` loop. -/

/-- When the selected identifier of a group is a key of its index, the
group's `write` iteration returns some output and leaves all three indexes
exactly as they were. -/
theorem writeGroup_found_preserves (g : String) (ids : List String)
    (oxford flair talon : List (String × List String))
    (hf : selectedFound ids oxford flair talon = true) :
    ∃ out, writeGroup g ids oxford flair talon
      = some (out, oxford, flair, talon) := by
  unfold selectedFound at hf
  unfold writeGroup ddRead
  repeat' split at hf
  all_goals (try (exact Bool.noConfusion hf))
  all_goals
    (obtain ⟨v, hv⟩ := Option.isSome_iff_exists.mp hf
     exact ⟨tagLines g v, by simp [*]⟩)

/-- C1 counterexample: a tracking group whose selected (pipeline-A)
identifier T1 is absent from the oxford index does NOT make `write` fail:
the indexes are `defaultdict(list)`, so the lookup silently inserts
`("T1", [])`, the group emits nothing, and `write` returns successfully
instead of raising the lookup error the claim requires. -/
theorem c1_counterexample :
    write [("G1", ["T1", "-", "-"])] [] [] []
      = some ([], [("T1", [])], [], [])
  ∧ write [("G1", ["T1", "-", "-"])] [] [] [] ≠ none := by
  constructor
  · rfl
  · simp [write, writeGroup, ddRead, dlookup]

/-- C1 (amended): when the selected identifier of a tracking group is
absent from the corresponding annotation index, `write` does not fail with
a lookup error: the `defaultdict` read inserts the identifier with an
empty record list at the end of that index, the group contributes no
output lines, and the merge continues with the remaining groups — the
cross-reference inconsistency is silent, not fatal.  (Stated for each of
the three priority slots, plus the continuation of the loop.) -/
theorem c1_missing_selected_silent :
    ∀ (g a b c : String) (rest : List String)
      (gs : List (String × List String))
      (oxford flair talon : List (String × List String)),
    (a ≠ "-" → dlookup a oxford = none →
      writeGroup g (a :: rest) oxford flair talon
        = some ([], oxford ++ [(a, [])], flair, talon))
  ∧ (a = "-" → b ≠ "-" → dlookup b flair = none →
      writeGroup g [a, b, c] oxford flair talon
        = some ([], oxford, flair ++ [(b, [])], talon))
  ∧ (a = "-" → b = "-" → dlookup c talon = none →
      writeGroup g [a, b, c] oxford flair talon
        = some ([], oxford, flair, talon ++ [(c, [])]))
  ∧ (a ≠ "-" → dlookup a oxford = none →
      write ((g, a :: rest) :: gs) oxford flair talon
        = write gs (oxford ++ [(a, [])]) flair talon) := by
  intro g a b c rest gs oxford flair talon
  have h1 : a ≠ "-" → dlookup a oxford = none →
      writeGroup g (a :: rest) oxford flair talon
        = some ([], oxford ++ [(a, [])], flair, talon) := by
    intro ha hmiss
    unfold writeGroup ddRead
    simp [ha, hmiss, tagLines]
  refine ⟨h1, ?_, ?_, ?_⟩
  · intro ha hb hmiss
    unfold writeGroup ddRead
    simp [ha, hb, hmiss, tagLines]
  · intro ha hb hmiss
    unfold writeGroup ddRead
    simp [ha, hb, hmiss, tagLines]
  · intro ha hmiss
    show (match writeGroup g (a :: rest) oxford flair talon with
          | none => none
          | some (out1, ox1, fl1, ta1) =>
            match write gs ox1 fl1 ta1 with
            | none => none
            | some (out2, ox2, fl2, ta2) => some (out1 ++ out2, ox2, fl2, ta2))
        = write gs (oxford ++ [(a, [])]) flair talon
    rw [h1 ha hmiss]
    show (match write gs (oxford ++ [(a, [])]) flair talon with
          | none => none
          | some (out2, ox2, fl2, ta2) => some ([] ++ out2, ox2, fl2, ta2))
        = write gs (oxford ++ [(a, [])]) flair talon
    cases hw : write gs (oxford ++ [(a, [])]) flair talon with
    | none => rfl
    | some r =>
      obtain ⟨o2, ox2, fl2, ta2⟩ := r
      simp

/-- Witness for the amended C1 at a concrete group and empty indexes. -/
theorem c1_witness :
    writeGroup "G2" ("TX" :: ["-", "-"]) [] [] []
      = some ([], [] ++ [("TX", [])], [], [])
  ∧ write [("G2", "TX" :: ["-", "-"])] [] [] []
      = write [] ([] ++ [("TX", [])]) [] [] :=
  ⟨(c1_missing_selected_silent "G2" "TX" "-" "-" ["-", "-"] [] [] [] []).1
      (by decide) rfl,
    (c1_missing_selected_silent "G2" "TX" "-" "-" ["-", "-"] [] [] [] []).2.2.2
      (by decide) rfl⟩

/-- C3 counterexample: `write` on a group whose selected identifier TY is
missing from the oxford index mutates that index: the `defaultdict` read
adds the key TY with an empty list, so the indexes are not left unchanged
as the claim requires. -/
theorem c3_counterexample :
    write [("G3", ["TY", "-", "-"])] [] [] []
      = some ([], [("TY", [])], [], [])
  ∧ ([("TY", [])] : List (String × List String)) ≠ [] := by
  constructor
  · rfl
  · simp

/-- C3 (amended): provided the selected identifier of every group in the
bucket is present as a key of its index, `write` leaves the three
annotation indexes exactly unchanged (same keys and values); when a
selected identifier is missing, the `defaultdict` read instead appends
that key with an empty record list to its index. -/
theorem c3_indexes_unchanged_when_found :
    ∀ (groups : List (String × List String))
      (oxford flair talon : List (String × List String))
      (out : List String) (ox' fl' ta' : List (String × List String)),
    (∀ p ∈ groups, selectedFound p.2 oxford flair talon = true) →
    write groups oxford flair talon = some (out, ox', fl', ta') →
    ox' = oxford ∧ fl' = flair ∧ ta' = talon := by
  intro groups
  induction groups with
  | nil =>
    intro ox fl ta out ox' fl' ta' _ h
    unfold write at h
    simp only [Option.some.injEq, Prod.mk.injEq] at h
    obtain ⟨-, h2, h3, h4⟩ := h
    exact ⟨h2.symm, h3.symm, h4.symm⟩
  | cons p gs ih =>
    intro ox fl ta out ox' fl' ta' hall h
    obtain ⟨g, ids⟩ := p
    obtain ⟨out1, h1⟩ :=
      writeGroup_found_preserves g ids ox fl ta
        (hall (g, ids) (List.mem_cons_self _ _))
    simp only [write, h1] at h
    cases hw : write gs ox fl ta with
    | none => rw [hw] at h; exact Option.noConfusion h
    | some r =>
      obtain ⟨o2, ox2, fl2, ta2⟩ := r
      rw [hw] at h
      simp only [Option.some.injEq, Prod.mk.injEq] at h
      obtain ⟨-, h2, h3, h4⟩ := h
      have hrec := ih ox fl ta o2 ox2 fl2 ta2
        (fun x hx => hall x (List.mem_cons_of_mem _ hx)) hw
      exact ⟨h2 ▸ hrec.1, h3 ▸ hrec.2.1, h4 ▸ hrec.2.2⟩

/-- Witness for the amended C3: a one-group bucket whose identifier is
present leaves the indexes untouched. -/
theorem c3_witness :
    ([("TZ", ["l1"])] : List (String × List String)) = [("TZ", ["l1"])]
  ∧ ([] : List (String × List String)) = []
  ∧ ([] : List (String × List String)) = [] :=
  c3_indexes_unchanged_when_found [("G4", ["TZ", "-", "-"])]
    [("TZ", ["l1"])] [] [] (tagLines "G4" ["l1"]) [("TZ", ["l1"])] [] []
    (by
      intro p hp
      simp only [List.mem_singleton] at hp
      subst hp
      decide)
    rfl

/-- C7: for a tracking group with identifier slots `[a, b, c]` of which at
least one is not the sentinel, `write` emits the record of exactly one
pipeline — the first in priority order oxford, flair, talon whose slot is
not the sentinel — with a ` match_id "<groupId>";` field appended to every
emitted line; in particular, when both the oxford and flair identifiers
are present, the oxford record is emitted. -/
theorem c7_priority_selection :
    ∀ (g a b c : String) (oxford flair talon : List (String × List String)),
    ¬(a = "-" ∧ b = "-" ∧ c = "-") →
    (writeGroup g [a, b, c] oxford flair talon).map (fun r => r.1)
      = some (tagLines g
          (if a ≠ "-" then (dlookup a oxford).getD []
           else if b ≠ "-" then (dlookup b flair).getD []
           else (dlookup c talon).getD [])) := by
  intro g a b c oxford flair talon _
  unfold writeGroup ddRead
  by_cases ha : a = "-"
  · by_cases hb : b = "-"
    · cases hd : dlookup c talon with
      | none => simp [ha, hb, hd]
      | some v => simp [ha, hb, hd]
    · cases hd : dlookup b flair with
      | none => simp [ha, hb, hd]
      | some v => simp [ha, hb, hd]
  · cases hd : dlookup a oxford with
    | none => simp [ha, hd]
    | some v => simp [ha, hd]

/-- Witness for C7: with both oxford and flair identifiers present, the
oxford record is the one emitted, tagged with the group id. -/
theorem c7_witness :
    (writeGroup "G5" ["TA", "TB", "-"] [("TA", ["x"])] [("TB", ["y"])] []).map
        (fun r => r.1)
      = some (tagLines "G5"
          (if "TA" ≠ "-" then (dlookup "TA" [("TA", ["x"])]).getD []
           else if "TB" ≠ "-" then (dlookup "TB" [("TB", ["y"])]).getD []
           else (dlookup "-" ([] : List (String × List String))).getD [])) :=
  c7_priority_selection "G5" "TA" "TB" "-" [("TA", ["x"])] [("TB", ["y"])] []
    (by decide)

/-! Helper lemmas about the dictionary model and `mapOpt`. -/

/-- A key absent from the front part of an appended dictionary is looked up
in the back part. -/
theorem dlookup_append_none {α : Type} {k : String} {d e : List (String × α)}
    (h : dlookup k d = none) : dlookup k (d ++ e) = dlookup k e := by
  induction d with
  | nil => rfl
  | cons p ps ih =>
    obtain ⟨k', v⟩ := p
    unfold dlookup at h
    by_cases hk : k' = k
    · rw [if_pos hk] at h
      exact Option.noConfusion h
    · rw [if_neg hk] at h
      show (if k' = k then some v else dlookup k (ps ++ e)) = dlookup k e
      rw [if_neg hk]
      exact ih h

/-- Inserting a fresh key into a dictionary appends the pair at the end. -/
theorem dinsert_fresh {α : Type} {k : String} {v : α} {d : List (String × α)}
    (h : dlookup k d = none) : dinsert k v d = d ++ [(k, v)] := by
  induction d with
  | nil => rfl
  | cons p ps ih =>
    obtain ⟨k', v'⟩ := p
    unfold dlookup at h
    by_cases hk : k' = k
    · rw [if_pos hk] at h
      exact Option.noConfusion h
    · rw [if_neg hk] at h
      show (if k' = k then (k, v) :: ps else (k', v') :: dinsert k v ps)
          = (k', v') :: (ps ++ [(k, v)])
      rw [if_neg hk, ih h]

/-- Every entry of `dinsert k v d` is the inserted pair or an entry of `d`. -/
theorem mem_dinsert {α : Type} {p : String × α} {k : String} {v : α}
    {d : List (String × α)} (h : p ∈ dinsert k v d) : p = (k, v) ∨ p ∈ d := by
  induction d with
  | nil => exact Or.inl (by simpa [dinsert] using h)
  | cons q qs ih =>
    obtain ⟨k', v'⟩ := q
    unfold dinsert at h
    by_cases hk : k' = k
    · rw [if_pos hk] at h
      rcases List.mem_cons.mp h with h1 | h1
      · exact Or.inl h1
      · exact Or.inr (List.mem_cons_of_mem _ h1)
    · rw [if_neg hk] at h
      rcases List.mem_cons.mp h with h1 | h1
      · exact Or.inr (h1 ▸ List.mem_cons_self _ _)
      · rcases ih h1 with h2 | h2
        · exact Or.inl h2
        · exact Or.inr (List.mem_cons_of_mem _ h2)

/-- Every entry of a dictionary built by repeated insertion comes from the
initial dictionary or from the inserted pairs. -/
theorem mem_foldl_dinsert {α : Type} :
    ∀ (prs : List (String × α)) (init : List (String × α)) (p : String × α),
    p ∈ prs.foldl (fun d q => dinsert q.1 q.2 d) init → p ∈ init ∨ p ∈ prs := by
  intro prs
  induction prs with
  | nil => intro init p h; exact Or.inl h
  | cons q qs ih =>
    intro init p h
    simp only [List.foldl_cons] at h
    rcases ih (dinsert q.1 q.2 init) p h with h1 | h1
    · rcases mem_dinsert h1 with h2 | h2
      · exact Or.inr (by rw [h2]; exact List.mem_cons_self _ _)
      · exact Or.inl h2
    · exact Or.inr (List.mem_cons_of_mem _ h1)

/-- Building a dictionary by inserting pairs with pairwise-distinct keys,
all fresh for the initial dictionary, just appends the pairs in order. -/
theorem foldl_dinsert_fresh {α : Type} :
    ∀ (prs : List (String × α)) (d : List (String × α)),
    (prs.map Prod.fst).Nodup →
    (∀ p ∈ prs, dlookup p.1 d = none) →
    prs.foldl (fun d q => dinsert q.1 q.2 d) d = d ++ prs := by
  intro prs
  induction prs with
  | nil => intro d _ _; simp
  | cons q qs ih =>
    intro d hnd hfresh
    rw [List.map_cons, List.nodup_cons] at hnd
    obtain ⟨hq, hqs⟩ := hnd
    simp only [List.foldl_cons]
    rw [dinsert_fresh (hfresh q (List.mem_cons_self _ _))]
    rw [ih (d ++ [(q.1, q.2)]) hqs ?fresh]
    case fresh =>
      intro p hp
      rw [dlookup_append_none (hfresh p (List.mem_cons_of_mem _ hp))]
      have hne : q.1 ≠ p.1 := fun e => hq (e ▸ List.mem_map_of_mem Prod.fst hp)
      simp [dlookup, hne]
    simp

/-- A successful `mapOpt` produces one output per input. -/
theorem mapOpt_length {α β : Type} {f : α → Option β} :
    ∀ {l : List α} {r : List β}, mapOpt f l = some r → r.length = l.length := by
  intro l
  induction l with
  | nil =>
    intro r h
    have h' : some ([] : List β) = some r := h
    obtain rfl := Option.some.inj h'
    rfl
  | cons a as ih =>
    intro r h
    unfold mapOpt at h
    cases hfa : f a with
    | none => rw [hfa] at h; exact Option.noConfusion h
    | some b =>
      cases hmas : mapOpt f as with
      | none => rw [hfa, hmas] at h; exact Option.noConfusion h
      | some bs =>
        rw [hfa, hmas] at h
        have h' : some (b :: bs) = some r := h
        obtain rfl := Option.some.inj h'
        simp [ih hmas]

/-- Every output of a successful `mapOpt` is the image of some input. -/
theorem mapOpt_mem {α β : Type} {f : α → Option β} :
    ∀ {l : List α} {r : List β}, mapOpt f l = some r →
    ∀ p ∈ r, ∃ a ∈ l, f a = some p := by
  intro l
  induction l with
  | nil =>
    intro r h p hp
    have h' : some ([] : List β) = some r := h
    obtain rfl := Option.some.inj h'
    exact absurd hp (List.not_mem_nil p)
  | cons a as ih =>
    intro r h p hp
    unfold mapOpt at h
    cases hfa : f a with
    | none => rw [hfa] at h; exact Option.noConfusion h
    | some b =>
      cases hmas : mapOpt f as with
      | none => rw [hfa, hmas] at h; exact Option.noConfusion h
      | some bs =>
        rw [hfa, hmas] at h
        have h' : some (b :: bs) = some r := h
        obtain rfl := Option.some.inj h'
        rcases List.mem_cons.mp hp with h1 | h1
        · exact ⟨a, List.mem_cons_self _ _, by rw [h1]; exact hfa⟩
        · obtain ⟨x, hx, hfx⟩ := ih hmas p h1
          exact ⟨x, List.mem_cons_of_mem _ hx, hfx⟩

/-- `mapOpt` succeeds and is fully determined when `f` is pointwise `some`
of a given value list. -/
theorem mapOpt_of_pointwise {α γ β : Type} {f : α → Option β} {g : γ → β} :
    ∀ (l : List α) (ns : List γ),
    l.map f = ns.map (fun n => some (g n)) →
    mapOpt f l = some (ns.map g) := by
  intro l
  induction l with
  | nil =>
    intro ns h
    cases ns with
    | nil => rfl
    | cons n ns => simp at h
  | cons a as ih =>
    intro ns h
    cases ns with
    | nil => simp at h
    | cons n ns =>
      simp only [List.map_cons, List.cons.injEq] at h
      obtain ⟨h1, h2⟩ := h
      unfold mapOpt
      rw [h1, ih ns h2]
      rfl

/-- Building a dictionary from pairs with pairwise-distinct keys yields
exactly that pair list. -/
theorem foldl_dinsert_nil {α : Type} (prs : List (String × α))
    (h : (prs.map Prod.fst).Nodup) :
    prs.foldl (fun d q => dinsert q.1 q.2 d) [] = prs := by
  have he := foldl_dinsert_fresh prs [] h (fun p _ => rfl)
  simpa using he

/-- C9 counterexample: the oxford abundance file with data rows `T,1` and
`T,2` has duplicate identifiers; the map overwrite keeps only the last
row's count 2, so the sum of the output values is 2 while the sum of all
numeric fields across all rows is 3. -/
theorem c9_counterexample :
    format_oxford ["h", "T,1", "T,2"] = some [("T", 2)]
  ∧ mapOpt oxfordRow ["T,1", "T,2"] = some [("T", 1), ("T", 2)]
  ∧ (([("T", (2 : Int))].map Prod.snd).sum = 2)
  ∧ (([("T", (1 : Int)), ("T", 2)].map Prod.snd).sum = 3)
  ∧ (2 : Int) ≠ 3 :=
  ⟨rfl, rfl, rfl, rfl, by decide⟩

/-- C9 (amended): for every valid abundance file of any of the three
variants whose data rows carry pairwise-distinct identifiers, the sum of
the values of the output map equals the sum of the per-row field sums
(each variant's empty-field skipping and fractional coercion included);
with duplicate identifiers, the last occurrence overwrites the earlier
ones and their contribution is lost. -/
theorem c9_value_sum_when_ids_distinct :
    (∀ (hdr : String) (rows : List String) (prs d : List (String × Int)),
      mapOpt oxfordRow rows = some prs →
      (prs.map Prod.fst).Nodup →
      format_oxford (hdr :: rows) = some d →
      (d.map Prod.snd).sum = (prs.map Prod.snd).sum)
  ∧ (∀ (hdr : String) (rows : List String) (prs d : List (String × Int)),
      mapOpt talonRow rows = some prs →
      (prs.map Prod.fst).Nodup →
      format_talon (hdr :: rows) = some d →
      (d.map Prod.snd).sum = (prs.map Prod.snd).sum)
  ∧ (∀ (hdr : String) (rows : List String) (prs d : List (String × ℚ)),
      mapOpt flairRow rows = some prs →
      (prs.map Prod.fst).Nodup →
      format_flair (hdr :: rows) = some d →
      (d.map Prod.snd).sum = (prs.map Prod.snd).sum) := by
  refine ⟨?_, ?_, ?_⟩
  · intro hdr rows prs d h1 h2 h3
    have h3' : (mapOpt oxfordRow rows).map
        (fun prs => prs.foldl (fun d p => dinsert p.1 p.2 d) []) = some d := h3
    rw [h1] at h3'
    simp only [Option.map_some', Option.some.injEq] at h3'
    rw [← h3', foldl_dinsert_nil prs h2]
  · intro hdr rows prs d h1 h2 h3
    have h3' : (mapOpt talonRow rows).map
        (fun prs => prs.foldl (fun d p => dinsert p.1 p.2 d) []) = some d := h3
    rw [h1] at h3'
    simp only [Option.map_some', Option.some.injEq] at h3'
    rw [← h3', foldl_dinsert_nil prs h2]
  · intro hdr rows prs d h1 h2 h3
    have h3' : (mapOpt flairRow rows).map
        (fun prs => prs.foldl (fun d p => dinsert p.1 p.2 d) []) = some d := h3
    rw [h1] at h3'
    simp only [Option.map_some', Option.some.injEq] at h3'
    rw [← h3', foldl_dinsert_nil prs h2]

/-- Witness for the amended C9: one concrete run of each variant with
distinct identifiers. -/
theorem c9_witness :
    (([("TO", (3 : Int))].map Prod.snd).sum = ([("TO", (3 : Int))].map Prod.snd).sum
  ∧ (([("TT", (7 : Int))].map Prod.snd).sum = ([("TT", (7 : Int))].map Prod.snd).sum)
  ∧ (([("TF", (0 : ℚ))].map Prod.snd).sum = ([("TF", (0 : ℚ))].map Prod.snd).sum)) :=
  ⟨c9_value_sum_when_ids_distinct.1 "h" ["TO,1,2"] [("TO", 3)] [("TO", 3)]
      rfl (by decide) rfl,
    c9_value_sum_when_ids_distinct.2.1 "h"
      ["a\tb\tc\tTT\te\tf\tg\th\ti\tj\tk\t3\t4"] [("TT", 7)] [("TT", 7)]
      rfl (by decide) rfl,
    c9_value_sum_when_ids_distinct.2.2 "h" ["TF"] [("TF", 0)] [("TF", 0)]
      (by decide) (by decide) (by decide)⟩

/-- C4: a variant-C (flair) abundance row whose fields after the
identifier are decimal encodings of natural numbers produces the value
`(↑(ns.sum) : ℚ)` — a non-negative integer equal to the sum of the fields
coerced to integer value (first conjunct; Python float arithmetic is
modelled exactly over `ℚ`); and every entry of the output map of
`format_flair` is the parse of one of the file's data rows (second
conjunct). -/
theorem c4_flair_integral_counts :
    (∀ (line tid : String) (rest : List String) (ns : List Nat),
      pysplitOn '\t' line = tid :: rest →
      rest.map pyfloat = ns.map (fun (n : Nat) => some ((n : ℚ))) →
      flairRow line = some (tid, ((ns.sum : Nat) : ℚ)))
  ∧ (∀ (hdr : String) (rows : List String) (d : List (String × ℚ))
        (p : String × ℚ),
      format_flair (hdr :: rows) = some d → p ∈ d →
      ∃ row ∈ rows, flairRow row = some p) := by
  constructor
  · intro line tid rest ns hsplit hpt
    unfold flairRow
    rw [hsplit]
    show (mapOpt pyfloat rest).map (fun vs => (tid, vs.sum))
        = some (tid, ((ns.sum : Nat) : ℚ))
    rw [mapOpt_of_pointwise rest ns hpt]
    simp [Nat.cast_list_sum]
  · intro hdr rows d p h hp
    have h' : (mapOpt flairRow rows).map
        (fun prs => prs.foldl (fun d q => dinsert q.1 q.2 d) []) = some d := h
    cases hm : mapOpt flairRow rows with
    | none => rw [hm] at h'; exact Option.noConfusion h'
    | some prs =>
      rw [hm] at h'
      simp only [Option.map_some', Option.some.injEq] at h'
      have hin : p ∈ prs.foldl (fun d q => dinsert q.1 q.2 d) [] := by
        rw [h']; exact hp
      rcases mem_foldl_dinsert prs [] p hin with h1 | h1
      · exact absurd h1 (List.not_mem_nil p)
      · exact mapOpt_mem hm p h1

/-- Witness for C4 on the row `TF	3.0	2.0`: value 5 as a cast natural
number, and the single map entry traced back to its row. -/
theorem c4_witness :
    flairRow "TF\t3.0\t2.0" = some ("TF", (([3, 2].sum : Nat) : ℚ))
  ∧ ∃ row ∈ ["TG"], flairRow row = some ("TG", (0 : ℚ)) :=
  ⟨c4_flair_integral_counts.1 "TF\t3.0\t2.0" "TF" ["3.0", "2.0"] [3, 2]
      (by decide) (by decide),
    c4_flair_integral_counts.2 "h" ["TG"] [("TG", 0)] ("TG", 0)
      (by decide) (by decide)⟩

/-! Helper lemmas about `categorize_tracking`. -/

/-- The three sentinel-count buckets partition the parsed lines, so their
sizes sum to the number of lines. -/
theorem bucket_length_sum :
    ∀ (parsed : List (String × List String × Nat)),
    ((parsed.filter (fun p => p.2.2 ≠ 1 ∧ p.2.2 ≠ 2)).map (fun p => (p.1, p.2.1))).length
      + ((parsed.filter (fun p => p.2.2 = 1)).map (fun p => (p.1, p.2.1))).length
      + ((parsed.filter (fun p => p.2.2 = 2)).map (fun p => (p.1, p.2.1))).length
    = parsed.length := by
  intro parsed
  induction parsed with
  | nil => rfl
  | cons p ps ih =>
    obtain ⟨k, ids, cnt⟩ := p
    by_cases h1 : cnt = 1
    · subst h1
      simp only [List.filter_cons] at ih ⊢
      simp at ih ⊢
      omega
    · by_cases h2 : cnt = 2
      · subst h2
        simp only [List.filter_cons] at ih ⊢
        simp at ih ⊢
        omega
      · simp only [List.filter_cons] at ih ⊢
        simp [h1, h2] at ih ⊢
        omega

/-- Running the `categorize_tracking` loop on lines whose group identifiers
are pairwise distinct and fresh for the three accumulators appends each
line's pair to the bucket its sentinel count selects: count 1 to
`two_match`, count 2 to `no_match`, anything else to `three_match`. -/
theorem categorizeAux_fresh :
    ∀ (lines : List String) (parsed : List (String × List String × Nat))
      (a3 a2 a1 : List (String × List String)),
    mapOpt trackingLine lines = some parsed →
    (parsed.map Prod.fst).Nodup →
    (∀ k ∈ parsed.map Prod.fst,
      dlookup k a3 = none ∧ dlookup k a2 = none ∧ dlookup k a1 = none) →
    categorizeAux a3 a2 a1 lines
      = some
          (a3 ++ (parsed.filter (fun p => p.2.2 ≠ 1 ∧ p.2.2 ≠ 2)).map (fun p => (p.1, p.2.1)),
           a2 ++ (parsed.filter (fun p => p.2.2 = 1)).map (fun p => (p.1, p.2.1)),
           a1 ++ (parsed.filter (fun p => p.2.2 = 2)).map (fun p => (p.1, p.2.1))) := by
  intro lines
  induction lines with
  | nil =>
    intro parsed a3 a2 a1 h1 _ _
    have h' : some ([] : List (String × List String × Nat)) = some parsed := h1
    obtain rfl := Option.some.inj h'
    simp [categorizeAux]
  | cons line ls ih =>
    intro parsed a3 a2 a1 h1 hnd hfresh
    unfold mapOpt at h1
    cases htl : trackingLine line with
    | none => rw [htl] at h1; exact Option.noConfusion h1
    | some t =>
      cases hml : mapOpt trackingLine ls with
      | none => rw [htl, hml] at h1; exact Option.noConfusion h1
      | some ps =>
        rw [htl, hml] at h1
        have h1' : some (t :: ps) = some parsed := h1
        obtain rfl := Option.some.inj h1'
        obtain ⟨key, ids, cnt⟩ := t
        simp only [List.map_cons, List.nodup_cons] at hnd
        obtain ⟨hk, hnd'⟩ := hnd
        have hfhead := hfresh key (by simp)
        unfold categorizeAux
        rw [htl]
        by_cases hc1 : cnt = 1
        · subst hc1
          show categorizeAux a3 (dinsert key ids a2) a1 ls = _
          rw [dinsert_fresh hfhead.2.1]
          rw [ih ps a3 (a2 ++ [(key, ids)]) a1 hml hnd' ?fr1]
          case fr1 =>
            intro k hkps
            have hin := hfresh k (by simp [hkps])
            refine ⟨hin.1, ?_, hin.2.2⟩
            rw [dlookup_append_none hin.2.1]
            have hne : key ≠ k := fun e => hk (e ▸ hkps)
            simp [dlookup, hne]
          simp [List.filter_cons, List.append_assoc]
        · by_cases hc2 : cnt = 2
          · subst hc2
            show categorizeAux a3 a2 (dinsert key ids a1) ls = _
            rw [dinsert_fresh hfhead.2.2]
            rw [ih ps a3 a2 (a1 ++ [(key, ids)]) hml hnd' ?fr2]
            case fr2 =>
              intro k hkps
              have hin := hfresh k (by simp [hkps])
              refine ⟨hin.1, hin.2.1, ?_⟩
              rw [dlookup_append_none hin.2.2]
              have hne : key ≠ k := fun e => hk (e ▸ hkps)
              simp [dlookup, hne]
            simp [List.filter_cons, List.append_assoc]
          · show (if cnt = 1 then categorizeAux a3 (dinsert key ids a2) a1 ls
                  else if cnt = 2 then categorizeAux a3 a2 (dinsert key ids a1) ls
                  else categorizeAux (dinsert key ids a3) a2 a1 ls) = _
            rw [if_neg hc1, if_neg hc2]
            rw [dinsert_fresh hfhead.1]
            rw [ih ps (a3 ++ [(key, ids)]) a2 a1 hml hnd' ?fr3]
            case fr3 =>
              intro k hkps
              have hin := hfresh k (by simp [hkps])
              refine ⟨?_, hin.2.1, hin.2.2⟩
              rw [dlookup_append_none hin.1]
              have hne : key ≠ k := fun e => hk (e ▸ hkps)
              simp [dlookup, hne]
            simp [List.filter_cons, List.append_assoc, hc1, hc2]

/-- C8 counterexample: a tracking file with two identical lines (same
group identifier `G`) yields buckets whose sizes sum to 1, not to the
number of input lines 2 — the dictionary insertion overwrites the earlier
line's entry. -/
theorem c8_counterexample :
    categorize_tracking ["G a b c -", "G a b c -"]
      = some ([], [("G", ["-"])], [])
  ∧ ([] : List (String × List String)).length + [("G", ["-"])].length
      + ([] : List (String × List String)).length
      ≠ (["G a b c -", "G a b c -"]).length := by
  constructor
  · rfl
  · decide

/-- C8 (amended): for a tracking file whose lines carry pairwise-distinct
group identifiers (field 0), `categorize_tracking` places each line's
group in exactly one of the three buckets according to its sentinel count
(1 → `two_match`, 2 → `no_match`, any other count — in particular 0 — →
`three_match`), the buckets are exactly the correspondingly-filtered
parsed lines in file order, and the bucket sizes sum to the number of
input lines.  With duplicated group identifiers the dictionary insertion
overwrites instead. -/
theorem c8_buckets_partition :
    ∀ (lines : List String) (parsed : List (String × List String × Nat))
      (d3 d2 d1 : List (String × List String)),
    mapOpt trackingLine lines = some parsed →
    (parsed.map Prod.fst).Nodup →
    categorize_tracking lines = some (d3, d2, d1) →
    d3 = (parsed.filter (fun p => p.2.2 ≠ 1 ∧ p.2.2 ≠ 2)).map (fun p => (p.1, p.2.1))
    ∧ d2 = (parsed.filter (fun p => p.2.2 = 1)).map (fun p => (p.1, p.2.1))
    ∧ d1 = (parsed.filter (fun p => p.2.2 = 2)).map (fun p => (p.1, p.2.1))
    ∧ d3.length + d2.length + d1.length = lines.length := by
  intro lines parsed d3 d2 d1 h1 hnd h3
  have he := categorizeAux_fresh lines parsed [] [] [] h1 hnd
    (fun k _ => ⟨rfl, rfl, rfl⟩)
  unfold categorize_tracking at h3
  rw [he] at h3
  simp only [List.nil_append, Option.some.injEq, Prod.mk.injEq] at h3
  obtain ⟨e3, e2, e1⟩ := h3
  refine ⟨e3.symm, e2.symm, e1.symm, ?_⟩
  rw [← e3, ← e2, ← e1]
  rw [bucket_length_sum parsed]
  exact mapOpt_length h1

/-- Witness for the amended C8: two lines with distinct group identifiers,
one full match (0 sentinels) and one with a single sentinel. -/
theorem c8_witness :
    ([("G1", ["t1"])] : List (String × List String))
        = (([("G1", (["t1"], 0)), ("G2", (["-"], 1))]
              : List (String × List String × Nat)).filter
            (fun p => p.2.2 ≠ 1 ∧ p.2.2 ≠ 2)).map (fun p => (p.1, p.2.1))
    ∧ ([("G2", ["-"])] : List (String × List String))
        = (([("G1", (["t1"], 0)), ("G2", (["-"], 1))]
              : List (String × List String × Nat)).filter
            (fun p => p.2.2 = 1)).map (fun p => (p.1, p.2.1))
    ∧ ([] : List (String × List String))
        = (([("G1", (["t1"], 0)), ("G2", (["-"], 1))]
              : List (String × List String × Nat)).filter
            (fun p => p.2.2 = 2)).map (fun p => (p.1, p.2.1))
    ∧ ([("G1", ["t1"])] : List (String × List String)).length
        + ([("G2", ["-"])] : List (String × List String)).length
        + ([] : List (String × List String)).length
        = (["G1 a b c p|t1", "G2 a b c -"]).length :=
  c8_buckets_partition ["G1 a b c p|t1", "G2 a b c -"]
    [("G1", (["t1"], 0)), ("G2", (["-"], 1))]
    [("G1", ["t1"])] [("G2", ["-"])] []
    rfl (by decide) rfl
